import Mathlib

/-!
Verification of the idempotent event store of `event-analytics-service`.

The development shallowly embeds the Go source:

* `internal/store/postgres.go` — `InsertEvent` / `CountEvents` over a durable
  `events` table (schema.sql); the table is modelled as a `List EventRecord`
  threaded through each operation, and the SQL statement
  `INSERT ... ON CONFLICT (tenant_id, event_id) DO NOTHING RETURNING 1`
  as an atomic insert-if-absent step (`execInsertOnConflict`).  A driver-level
  durability failure is modelled by an explicit `fault` parameter carrying the
  driver error message; the pgx sentinel `ErrNoRows` carries the message
  `"no rows in result set"`, which the Go code compares against by string.
* `internal/handlers/event.go` — the idempotency-key precedence
  (`chooseEventID`).
* `internal/handlers/metrics.go` — the error branch of the metrics handler
  (`metricsHandler`).
* `internal/auth` middleware and `internal/config/config.go` — credential
  resolution (`APIKeyMiddleware`, `Load`).

Go `map[string]interface{}` attribute values are modelled by `GoValue`;
`json.Marshal` by `marshalValue`, which fails exactly on values Go cannot
serialize (funcs, channels, ...), modelled by the `vunsupported` constructor.
Timestamps (`time.Time` / `TIMESTAMPTZ`) are modelled as `Int`: only their
linear order is relevant to the store.
-/

mutual

/-- A JSON-like Go `interface{}` value held in an event's attribute map.
`vunsupported` stands for a Go value `json.Marshal` rejects (func, chan, ...),
carrying the Go type name used in the error message. -/
inductive GoValue : Type where
  | vnull : GoValue
  | vbool (b : Bool) : GoValue
  | vint (n : Int) : GoValue
  | vstr (s : String) : GoValue
  | vobj (fields : GoFields) : GoValue
  | vunsupported (goType : String) : GoValue

/-- The entries of a Go `map[string]interface{}` (attributes / properties). -/
inductive GoFields : Type where
  | nil : GoFields
  | cons (key : String) (val : GoValue) (rest : GoFields) : GoFields

end

mutual

/-- Models `json.Marshal` on one value: succeeds with a canonical rendering,
fails with Go's `json: unsupported type` error on unserializable values. -/
def marshalValue : GoValue → Except String String
  | .vnull => .ok "null"
  | .vbool b => .ok (if b then "true" else "false")
  | .vint n => .ok (toString n)
  | .vstr s => .ok ("\"" ++ s ++ "\"")
  | .vobj fs =>
    match marshalFields fs with
    | .error e => .error e
    | .ok body => .ok ("\x7b" ++ body ++ "\x7d")
  | .vunsupported t => .error ("json: unsupported type: " ++ t)

/-- Models `json.Marshal` on the entries of a map value. -/
def marshalFields : GoFields → Except String String
  | .nil => .ok ""
  | .cons k v rest =>
    match marshalValue v with
    | .error e => .error e
    | .ok vs =>
      match marshalFields rest with
      | .error e => .error e
      | .ok rs => .ok ("\"" ++ k ++ "\":" ++ vs ++ (if rs = "" then "" else "," ++ rs))

end

/-- One row of the `events` table (schema.sql): the sole persisted entity.
`properties` holds the marshalled JSON text (`propsJSON` in `InsertEvent`);
`ingested_at` is the server-assigned write time (`DEFAULT now()`). -/
structure EventRecord : Type where
  tenant_id : String
  event_id : String
  event_name : String
  ts : Int
  properties : String
  ingested_at : Int
deriving DecidableEq, Repr

/-- Does record `r` carry the dedup key `(t, e)`?  The key of the
`PRIMARY KEY (tenant_id, event_id)` constraint. -/
def keyMatches (t e : String) (r : EventRecord) : Bool :=
  r.tenant_id == t && r.event_id == e

/-- Does the table hold a row with dedup key `(t, e)`? -/
def hasKey (db : List EventRecord) (t e : String) : Bool :=
  db.any (keyMatches t e)

/-- Number of rows with dedup key `(t, e)` — the primary key makes this ≤ 1
on every reachable state. -/
def keyCount (db : List EventRecord) (t e : String) : Nat :=
  (db.filter (keyMatches t e)).length

/-- Outcome of `QueryRow(...).Scan(&one)` on the insert statement:
a returned row, the pgx `ErrNoRows` sentinel (the `ON CONFLICT DO NOTHING`
case, since `RETURNING` then yields no row), or any other driver error. -/
inductive ScanResult : Type where
  | ok : ScanResult
  | noRows : ScanResult
  | fault (msg : String) : ScanResult

/-- The `error` value `Scan` returns, as Go's `err` / `err.Error()`:
`none` is `err == nil`; pgx's `ErrNoRows` message is the fixed string
`"no rows in result set"`. -/
def scanError : ScanResult → Option String
  | .ok => none
  | .noRows => some "no rows in result set"
  | .fault msg => some msg

/-- Atomic semantics of
`INSERT INTO events ... ON CONFLICT (tenant_id, event_id) DO NOTHING RETURNING 1`:
a durability fault leaves the table unchanged and surfaces the driver message;
otherwise the row is inserted iff its key is absent, and a conflict returns no
row (`noRows`). -/
def execInsertOnConflict (db : List EventRecord) (r : EventRecord)
    (fault : Option String) : ScanResult × List EventRecord :=
  match fault with
  | some msg => (.fault msg, db)
  | none =>
    if hasKey db r.tenant_id r.event_id then (.noRows, db)
    else (.ok, db ++ [r])

/-- Model of `PostgresStore.InsertEvent` (postgres.go).  Returns Go's
`(inserted, err)` pair together with the table state after the call.
`ingNow` is the server clock feeding the `ingested_at DEFAULT now()` column;
`fault` injects a driver-level durability failure. -/
def InsertEvent (db : List EventRecord) (ingNow : Int) (fault : Option String)
    (tenantID eventID eventName : String) (ts : Int)
    (properties : Option GoFields) : (Bool × Option String) × List EventRecord :=
  if tenantID = "" ∨ eventID = "" ∨ eventName = "" then
    ((false, some "tenantID/eventID/eventName required"), db)
  else
    let props := properties.getD GoFields.nil
    match marshalValue (GoValue.vobj props) with
    | .error msg => ((false, some msg), db)
    | .ok propsJSON =>
      let r : EventRecord :=
        { tenant_id := tenantID, event_id := eventID, event_name := eventName,
          ts := ts, properties := propsJSON, ingested_at := ingNow }
      let res := execInsertOnConflict db r fault
      match scanError res.1 with
      | none => ((true, none), res.2)
      | some m =>
        if m = "no rows in result set" then ((false, none), res.2)
        else ((false, some m), res.2)

/-- The row predicate of the `CountEvents` query:
`tenant_id=$1 AND event_name=$2 AND ts >= $3 AND ts < $4`. -/
def countMatches (tenantID eventName : String) (tFrom tTo : Int)
    (r : EventRecord) : Bool :=
  r.tenant_id == tenantID && r.event_name == eventName
    && decide (tFrom ≤ r.ts) && decide (r.ts < tTo)

/-- Model of `PostgresStore.CountEvents` (postgres.go): `SELECT COUNT(*)` over the
window `[tFrom, tTo)`, returned as Go's `(count, err)` pair.  On a driver
fault `Scan` leaves `count` at its zero value and the error is returned. -/
def CountEvents (db : List EventRecord) (tenantID eventName : String)
    (tFrom tTo : Int) (fault : Option String) : Int × Option String :=
  match fault with
  | some msg => ((0 : Int), some msg)
  | none => (((db.filter (countMatches tenantID eventName tFrom tTo)).length : Int), none)

/-- The event-identity precedence of the ingest handler
(handlers/event.go, `RegisterEventRoutes`):
`eventID := c.GetHeader("Idempotency-Key")`, falling back to the payload's
`event_id`, falling back to a freshly generated UUID. -/
def chooseEventID (idempotencyKeyHeader payloadEventID freshUUID : String) : String :=
  let eventID := idempotencyKeyHeader
  let eventID := if eventID = "" then payloadEventID else eventID
  let eventID := if eventID = "" then freshUUID else eventID
  eventID

/-- HTTP response of the metrics handler, after parameter validation. -/
inductive MetricsResponse : Type where
  | serverError (body : String) : MetricsResponse
  | okCount (event_name : String) (count : Int) : MetricsResponse
deriving DecidableEq, Repr

/-- The HTTP status the handler attaches to each response. -/
def MetricsResponse.status : MetricsResponse → Nat
  | .serverError _ => 500
  | .okCount _ _ => 200

/-- The store-facing tail of the metrics handler
(handlers/metrics.go, `RegisterMetricRoutes` after validation):
call `CountEvents`; a non-nil error becomes a 500 `"db query failed"`
response, otherwise a 200 response carrying the count. -/
def metricsHandler (db : List EventRecord) (tenantID eventName : String)
    (tFrom tTo : Int) (fault : Option String) : MetricsResponse :=
  let res := CountEvents db tenantID eventName tFrom tTo fault
  match res.2 with
  | some _ => .serverError "db query failed"
  | none => .okCount eventName res.1

/-- Result of the API-key middleware on one request. -/
inductive MwResult : Type where
  | rejected (status : Nat) (body : String) : MwResult
  | accepted (tenantID : String) : MwResult
deriving DecidableEq, Repr

/-- Go's `strings.TrimSpace`: strip leading and trailing whitespace.
Defined over the character list so that concrete instances evaluate. -/
def trimSpace (s : String) : String :=
  String.mk (((s.data.dropWhile Char.isWhitespace).reverse.dropWhile
    Char.isWhitespace).reverse)

/-- Model of `auth.APIKeyMiddleware`: trim the `X-API-Key` header, look it up in the
static credential table; a miss aborts with 401 `"unauthorized"`, a hit
stores the tenant ID in the request context. -/
def APIKeyMiddleware (keys : List (String × String)) (headerXAPIKey : String) :
    MwResult :=
  let apiKey := trimSpace headerXAPIKey
  match keys.lookup apiKey with
  | none => .rejected 401 "unauthorized"
  | some tenantID => .accepted tenantID

/-- Go map assignment `m[k] = v`: overwrite the entry for `k` if present,
otherwise add it.  The association list keeps one entry per key. -/
def mapInsert (m : List (String × String)) (k v : String) :
    List (String × String) :=
  match m with
  | [] => [(k, v)]
  | (k', v') :: rest =>
    if k' = k then (k, v) :: rest else (k', v') :: mapInsert rest k v

/-- Go `strings.SplitN(s, ":", 2)`: the text before the first colon and the
rest, or the whole string when no colon occurs. -/
def splitN2Colon (s : String) : List String :=
  match s.splitOn ":" with
  | [] => [s]
  | [x] => [x]
  | x :: rest => [x, String.intercalate ":" rest]

/-- The parsing loop of `config.Load` over the comma-separated `API_KEYS`
pairs, accumulating the `apiKey -> tenantID` map. -/
def parsePairs : List String → List (String × String) →
    Except String (List (String × String))
  | [], acc => .ok acc
  | p :: rest, acc =>
    if trimSpace p = "" then parsePairs rest acc
    else
      match splitN2Colon (trimSpace p) with
      | [t, k] =>
        if trimSpace t = "" ∨ trimSpace k = "" then
          .error "API_KEYS must be \"tenant:key,tenant:key\""
        else parsePairs rest (mapInsert acc (trimSpace k) (trimSpace t))
      | _ => .error "API_KEYS must be \"tenant:key,tenant:key\""

/-- Runtime configuration (config.go). -/
structure Config : Type where
  DBURL : String
  APIKeys : List (String × String)
deriving DecidableEq, Repr

/-- Model of `config.Load`, as a function of the two environment variables it reads:
requires a non-blank `DB_URL`, parses `API_KEYS`, and falls back to the
local-dev credential `tenant-key-123 -> tenant1` when no pair was given. -/
def Load (envDBURL envAPIKeys : String) : Except String Config :=
  if trimSpace envDBURL = "" then .error "DB_URL required"
  else
    match (if trimSpace envAPIKeys = "" then .ok []
           else parsePairs ((trimSpace envAPIKeys).splitOn ",") []) with
    | .error e => .error e
    | .ok parsed =>
      .ok { DBURL := trimSpace envDBURL,
            APIKeys := if parsed = [] then [("tenant-key-123", "tenant1")] else parsed }

/-- The per-call payload of one concurrent ingest attempt for a fixed
dedup key: everything `InsertEvent` takes besides the key. -/
structure IngestCall : Type where
  ingNow : Int
  eventName : String
  ts : Int
  properties : Option GoFields

/-- Run a batch of ingest calls for one dedup key in the order the database
serializes them (the unique constraint arbitrates the race; each statement is
atomic).  Returns every call's `(inserted, err)` result and the final table. -/
def runIngests (tenantID eventID : String) :
    List IngestCall → List EventRecord →
    List (Bool × Option String) × List EventRecord
  | [], db => ([], db)
  | c :: rest, db =>
    let step := InsertEvent db c.ingNow none tenantID eventID c.eventName c.ts c.properties
    let tail := runIngests tenantID eventID rest step.2
    (step.1 :: tail.1, tail.2)

/-- Every table state a reader could observe while the batch runs: the state
before each call and the final state. -/
def ingestStates (tenantID eventID : String) :
    List IngestCall → List EventRecord → List (List EventRecord)
  | [], db => [db]
  | c :: rest, db =>
    let step := InsertEvent db c.ingNow none tenantID eventID c.eventName c.ts c.properties
    db :: ingestStates tenantID eventID rest step.2

/-- Does `json.Marshal` succeed on this (possibly nil) attribute map? -/
def marshalOk (properties : Option GoFields) : Bool :=
  match marshalValue (GoValue.vobj (properties.getD GoFields.nil)) with
  | .ok _ => true
  | .error _ => false

/-- The JSON text `json.Marshal` produces on success (unused default otherwise). -/
def marshalString (properties : Option GoFields) : String :=
  match marshalValue (GoValue.vobj (properties.getD GoFields.nil)) with
  | .ok s => s
  | .error _ => ""

/-- Unfolding lemma: a valid, serializable ingest with no fault whose key is
absent inserts exactly one row and reports `created`. -/
theorem insertEvent_created (db : List EventRecord) (ingNow : Int)
    (t e en : String) (ts : Int) (p : Option GoFields)
    (ht : t ≠ "") (he : e ≠ "") (hen : en ≠ "")
    (hm : marshalOk p = true) (hk : hasKey db t e = false) :
    InsertEvent db ingNow none t e en ts p =
      ((true, none),
       db ++ [{ tenant_id := t, event_id := e, event_name := en, ts := ts,
                properties := marshalString p, ingested_at := ingNow }]) := by
  have hcond : ¬ (t = "" ∨ e = "" ∨ en = "") := by
    push_neg
    exact ⟨ht, he, hen⟩
  obtain ⟨s, hs⟩ : ∃ s, marshalValue (GoValue.vobj (p.getD GoFields.nil)) = .ok s := by
    unfold marshalOk at hm
    cases hmv : marshalValue (GoValue.vobj (p.getD GoFields.nil)) with
    | ok s => exact ⟨s, rfl⟩
    | error msg => rw [hmv] at hm; simp at hm
  have hms : marshalString p = s := by
    unfold marshalString
    rw [hs]
  unfold InsertEvent
  rw [if_neg hcond]
  simp only [hs, execInsertOnConflict, hk, Bool.false_eq_true, if_false, scanError, hms]

/-- Unfolding lemma: a valid, serializable ingest with no fault whose key is
already present changes nothing and reports `duplicate`. -/
theorem insertEvent_duplicate (db : List EventRecord) (ingNow : Int)
    (t e en : String) (ts : Int) (p : Option GoFields)
    (ht : t ≠ "") (he : e ≠ "") (hen : en ≠ "")
    (hm : marshalOk p = true) (hk : hasKey db t e = true) :
    InsertEvent db ingNow none t e en ts p = ((false, none), db) := by
  have hcond : ¬ (t = "" ∨ e = "" ∨ en = "") := by
    push_neg
    exact ⟨ht, he, hen⟩
  obtain ⟨s, hs⟩ : ∃ s, marshalValue (GoValue.vobj (p.getD GoFields.nil)) = .ok s := by
    unfold marshalOk at hm
    cases hmv : marshalValue (GoValue.vobj (p.getD GoFields.nil)) with
    | ok s => exact ⟨s, rfl⟩
    | error msg => rw [hmv] at hm; simp at hm
  unfold InsertEvent
  rw [if_neg hcond]
  simp only [hs, execInsertOnConflict, hk, if_true, scanError, if_pos rfl]

/-- Unfolding lemma: a valid, serializable ingest hitting a driver fault whose
message is not the pgx no-rows sentinel reports that fault and changes nothing. -/
theorem insertEvent_fault (db : List EventRecord) (ingNow : Int) (msg : String)
    (t e en : String) (ts : Int) (p : Option GoFields)
    (ht : t ≠ "") (he : e ≠ "") (hen : en ≠ "")
    (hm : marshalOk p = true) (hmsg : msg ≠ "no rows in result set") :
    InsertEvent db ingNow (some msg) t e en ts p = ((false, some msg), db) := by
  have hcond : ¬ (t = "" ∨ e = "" ∨ en = "") := by
    push_neg
    exact ⟨ht, he, hen⟩
  obtain ⟨s, hs⟩ : ∃ s, marshalValue (GoValue.vobj (p.getD GoFields.nil)) = .ok s := by
    unfold marshalOk at hm
    cases hmv : marshalValue (GoValue.vobj (p.getD GoFields.nil)) with
    | ok s => exact ⟨s, rfl⟩
    | error msg => rw [hmv] at hm; simp at hm
  unfold InsertEvent
  rw [if_neg hcond]
  simp only [hs, execInsertOnConflict, scanError, if_neg hmsg]

/-- Every ingest either leaves the table untouched or appends exactly the
one new row built from its own arguments. -/
theorem insertEvent_state (db : List EventRecord) (ingNow : Int)
    (fault : Option String) (t e en : String) (ts : Int) (p : Option GoFields) :
    (InsertEvent db ingNow fault t e en ts p).2 = db ∨
      (InsertEvent db ingNow fault t e en ts p).2 =
        db ++ [{ tenant_id := t, event_id := e, event_name := en, ts := ts,
                 properties := marshalString p, ingested_at := ingNow }] := by
  unfold InsertEvent
  split
  · exact Or.inl rfl
  · cases hmv : marshalValue (GoValue.vobj (p.getD GoFields.nil)) with
    | error msg => simp [hmv]
    | ok s =>
      have hms : marshalString p = s := by
        unfold marshalString
        rw [hmv]
      simp only [hmv, hms]
      unfold execInsertOnConflict
      cases fault with
      | some msg =>
        simp only [scanError]
        split <;> exact Or.inl rfl
      | none =>
        by_cases hk : hasKey db t e = true
        · simp [hk, scanError]
        · simp only [Bool.not_eq_true] at hk
          simp [hk, scanError]

/-- A key is absent exactly when no row carries it. -/
theorem keyCount_eq_zero_of_not_hasKey (db : List EventRecord) (t e : String)
    (h : hasKey db t e = false) : keyCount db t e = 0 := by
  unfold hasKey at h
  unfold keyCount
  rw [List.length_eq_zero]
  rw [List.filter_eq_nil_iff]
  intro a ha
  have := List.any_eq_false.mp h a ha
  simpa using this

/-- `hasKey` over an appended row. -/
theorem hasKey_append_single (db : List EventRecord) (r : EventRecord)
    (t e : String) :
    hasKey (db ++ [r]) t e = (hasKey db t e || keyMatches t e r) := by
  unfold hasKey
  simp [List.any_append]

/-- `keyCount` over an appended row. -/
theorem keyCount_append_single (db : List EventRecord) (r : EventRecord)
    (t e : String) :
    keyCount (db ++ [r]) t e =
      keyCount db t e + (if keyMatches t e r then 1 else 0) := by
  unfold keyCount
  rw [List.filter_append]
  simp only [List.length_append]
  by_cases h : keyMatches t e r = true
  · simp [h]
  · simp only [Bool.not_eq_true] at h
    simp [h]

/-- The freshly inserted row carries its own key. -/
theorem keyMatches_self (t e en : String) (ts : Int) (props : String) (ing : Int) :
    keyMatches t e { tenant_id := t, event_id := e, event_name := en,
                     ts := ts, properties := props, ingested_at := ing } = true := by
  simp [keyMatches]

/-- The `(inserted, err)` result of an ingest depends on the prior table state
only through the presence of its own dedup key. -/
theorem insertEvent_result_eq_of_hasKey_eq
    (db1 db2 : List EventRecord) (ingNow1 ingNow2 : Int) (fault : Option String)
    (t e en : String) (ts : Int) (p : Option GoFields)
    (h : hasKey db1 t e = hasKey db2 t e) :
    (InsertEvent db1 ingNow1 fault t e en ts p).1 =
      (InsertEvent db2 ingNow2 fault t e en ts p).1 := by
  unfold InsertEvent
  split
  · rfl
  · cases hmv : marshalValue (GoValue.vobj (p.getD GoFields.nil)) with
    | error msg => simp [hmv]
    | ok s =>
      simp only [hmv]
      unfold execInsertOnConflict
      cases fault with
      | some msg =>
        simp only [scanError]
        split <;> rfl
      | none =>
        by_cases hk : hasKey db1 t e = true
        · simp [hk, ← h, scanError]
        · simp only [Bool.not_eq_true] at hk
          simp [hk, ← h, scanError]

/-- If every existing key differs from `k`, a lookup for `k` misses. -/
theorem lookup_eq_none_of_key_ne (m : List (String × String)) (k : String)
    (h : ∀ kv ∈ m, kv.1 ≠ k) : m.lookup k = none := by
  induction m with
  | nil => rfl
  | cons kv rest ih =>
    have hk : kv.1 ≠ k := h kv (List.mem_cons_self kv rest)
    have hbeq : (k == kv.1) = false := beq_eq_false_iff_ne.mpr (Ne.symm hk)
    simp only [List.lookup, hbeq]
    exact ih (fun x hx => h x (List.mem_cons_of_mem _ hx))

/-- Membership in a Go-map assignment: the entry comes from the old map or
carries the assigned key. -/
theorem mem_mapInsert (m : List (String × String)) (k v : String)
    (kv : String × String) (h : kv ∈ mapInsert m k v) : kv ∈ m ∨ kv.1 = k := by
  induction m with
  | nil =>
    simp only [mapInsert, List.mem_singleton] at h
    subst h
    exact Or.inr rfl
  | cons hd rest ih =>
    unfold mapInsert at h
    by_cases hhd : hd.1 = k
    · rw [if_pos hhd] at h
      rcases List.mem_cons.mp h with h1 | h1
      · subst h1
        exact Or.inr rfl
      · exact Or.inl (List.mem_cons_of_mem _ h1)
    · rw [if_neg hhd] at h
      rcases List.mem_cons.mp h with h1 | h1
      · subst h1
        exact Or.inl (List.mem_cons_self _ _)
      · rcases ih h1 with h2 | h2
        · exact Or.inl (List.mem_cons_of_mem _ h2)
        · exact Or.inr h2

/-- Every credential key produced by the `API_KEYS` parsing loop is non-blank
(the loop rejects blank keys), provided the accumulator's keys are. -/
theorem parsePairs_key_ne_blank (ps : List String) :
    ∀ acc m : List (String × String), (∀ kv ∈ acc, kv.1 ≠ "") →
    parsePairs ps acc = .ok m → ∀ kv ∈ m, kv.1 ≠ "" := by
  induction ps with
  | nil =>
    intro acc m hacc h
    unfold parsePairs at h
    cases h
    exact hacc
  | cons p rest ih =>
    intro acc m hacc h
    unfold parsePairs at h
    by_cases hp : trimSpace p = ""
    · rw [if_pos hp] at h
      exact ih acc m hacc h
    · rw [if_neg hp] at h
      split at h
      · split at h
        · cases h
        · rename_i hcond
          push_neg at hcond
          refine ih _ m ?_ h
          intro kv hkv
          rcases mem_mapInsert _ _ _ kv hkv with h1 | h1
          · exact hacc kv h1
          · rw [h1]
            exact hcond.2
      · cases h

/-- Every credential key of a successfully loaded configuration is non-blank:
parsed keys are validated non-blank and the dev fallback key is non-blank. -/
theorem load_key_ne_blank (envDBURL envAPIKeys : String) (cfg : Config)
    (h : Load envDBURL envAPIKeys = .ok cfg) :
    ∀ kv ∈ cfg.APIKeys, kv.1 ≠ "" := by
  unfold Load at h
  split at h
  · cases h
  · split at h
    · cases h
    · rename_i parsed heq
      cases h
      intro kv hkv
      dsimp only at hkv
      by_cases hparsed : parsed = []
      · rw [if_pos hparsed, List.mem_singleton] at hkv
        subst hkv
        decide
      · rw [if_neg hparsed] at hkv
        by_cases hraw : trimSpace envAPIKeys = ""
        · rw [if_pos hraw] at heq
          cases heq
          exact absurd rfl hparsed
        · rw [if_neg hraw] at heq
          exact parsePairs_key_ne_blank ((trimSpace envAPIKeys).splitOn ",") [] parsed
            (by intro kv2 hkv2; cases hkv2) heq kv hkv

/-- Once the key is present, a whole batch of valid ingests for it returns
only `duplicate` results and never changes the table. -/
theorem runIngests_all_dup (t e : String) (calls : List IngestCall)
    (db : List EventRecord)
    (ht : t ≠ "") (he : e ≠ "")
    (hcalls : ∀ x ∈ calls, x.eventName ≠ "" ∧ marshalOk x.properties = true)
    (hk : hasKey db t e = true) :
    runIngests t e calls db = (List.replicate calls.length (false, none), db) := by
  induction calls with
  | nil => rfl
  | cons c rest ih =>
    have hc := hcalls c (List.mem_cons_self c rest)
    have hstep := insertEvent_duplicate db c.ingNow t e c.eventName c.ts c.properties
      ht he hc.1 hc.2 hk
    simp only [runIngests, hstep]
    rw [ih (fun x hx => hcalls x (List.mem_cons_of_mem _ hx))]
    simp [List.replicate_succ]

/-- Once the key is present, every state a batch of valid ingests for it
exposes is the unchanged table. -/
theorem ingestStates_all_dup (t e : String) (calls : List IngestCall)
    (db : List EventRecord)
    (ht : t ≠ "") (he : e ≠ "")
    (hcalls : ∀ x ∈ calls, x.eventName ≠ "" ∧ marshalOk x.properties = true)
    (hk : hasKey db t e = true) :
    ingestStates t e calls db = List.replicate (calls.length + 1) db := by
  induction calls with
  | nil => rfl
  | cons c rest ih =>
    have hc := hcalls c (List.mem_cons_self c rest)
    have hstep := insertEvent_duplicate db c.ingNow t e c.eventName c.ts c.properties
      ht he hc.1 hc.2 hk
    simp only [ingestStates, hstep]
    rw [ih (fun x hx => hcalls x (List.mem_cons_of_mem _ hx))]
    simp [List.replicate_succ]

/-- Trichotomy-style characterization: an ingest either reports `created` and
appends exactly its own row, or reports a non-created outcome and leaves the
table exactly as it was. -/
theorem insertEvent_created_or_unchanged (db : List EventRecord) (ingNow : Int)
    (fault : Option String) (t e en : String) (ts : Int) (p : Option GoFields) :
    ((InsertEvent db ingNow fault t e en ts p).1 = (true, none) ∧
      (InsertEvent db ingNow fault t e en ts p).2 =
        db ++ [{ tenant_id := t, event_id := e, event_name := en, ts := ts,
                 properties := marshalString p, ingested_at := ingNow }]) ∨
    ((InsertEvent db ingNow fault t e en ts p).1.1 = false ∧
      (InsertEvent db ingNow fault t e en ts p).2 = db) := by
  unfold InsertEvent
  split
  · exact Or.inr ⟨rfl, rfl⟩
  · cases hmv : marshalValue (GoValue.vobj (p.getD GoFields.nil)) with
    | error msg => right; simp [hmv]
    | ok s =>
      have hms : marshalString p = s := by
        unfold marshalString
        rw [hmv]
      simp only [hmv, hms]
      unfold execInsertOnConflict
      cases fault with
      | some msg =>
        simp only [scanError]
        split
        · exact Or.inr ⟨rfl, rfl⟩
        · exact Or.inr ⟨rfl, rfl⟩
      | none =>
        by_cases hk : hasKey db t e = true
        · simp [hk, scanError]
        · simp only [Bool.not_eq_true] at hk
          simp [hk, scanError]

/-- C1: for a valid `(tenant_id, event_id)` pair not yet stored, ingesting
twice — with identical or differing event_name, occurred_at, or attributes —
returns `created` (inserted, no error) on the first call and `duplicate`
(not inserted, no error) on the second, the second call writes nothing (the
duplicate's content is never compared or merged into the store), and exactly
one record keyed by the pair exists afterward. -/
theorem C1_ingest_twice_idempotent
    (db : List EventRecord) (t e : String) (n1 n2 : Int)
    (en1 en2 : String) (ts1 ts2 : Int) (p1 p2 : Option GoFields)
    (ht : t ≠ "") (he : e ≠ "") (hen1 : en1 ≠ "") (hen2 : en2 ≠ "")
    (hm1 : marshalOk p1 = true) (hm2 : marshalOk p2 = true)
    (habsent : hasKey db t e = false) :
    (InsertEvent db n1 none t e en1 ts1 p1).1 = (true, none) ∧
    (InsertEvent (InsertEvent db n1 none t e en1 ts1 p1).2 n2 none t e en2 ts2 p2).1
      = (false, none) ∧
    (InsertEvent (InsertEvent db n1 none t e en1 ts1 p1).2 n2 none t e en2 ts2 p2).2
      = (InsertEvent db n1 none t e en1 ts1 p1).2 ∧
    keyCount (InsertEvent (InsertEvent db n1 none t e en1 ts1 p1).2
        n2 none t e en2 ts2 p2).2 t e = 1 := by
  have h1 := insertEvent_created db n1 t e en1 ts1 p1 ht he hen1 hm1 habsent
  have hk1 : hasKey (InsertEvent db n1 none t e en1 ts1 p1).2 t e = true := by
    rw [h1, hasKey_append_single]
    simp [keyMatches_self]
  have h2 := insertEvent_duplicate (InsertEvent db n1 none t e en1 ts1 p1).2
    n2 t e en2 ts2 p2 ht he hen2 hm2 hk1
  refine ⟨by rw [h1], by rw [h2], by rw [h2], ?_⟩
  rw [h2, h1, keyCount_append_single, keyCount_eq_zero_of_not_hasKey db t e habsent]
  simp [keyMatches_self]

/-- C1 witness: a concrete double ingest of `("t1", "e1")` into the empty
store. -/
theorem C1_ingest_twice_idempotent_witness :
    (InsertEvent [] 5 none "t1" "e1" "login" 10 none).1 = (true, none) ∧
    (InsertEvent (InsertEvent [] 5 none "t1" "e1" "login" 10 none).2
        6 none "t1" "e1" "logout" 11 none).1 = (false, none) ∧
    (InsertEvent (InsertEvent [] 5 none "t1" "e1" "login" 10 none).2
        6 none "t1" "e1" "logout" 11 none).2
      = (InsertEvent [] 5 none "t1" "e1" "login" 10 none).2 ∧
    keyCount (InsertEvent (InsertEvent [] 5 none "t1" "e1" "login" 10 none).2
        6 none "t1" "e1" "logout" 11 none).2 "t1" "e1" = 1 :=
  C1_ingest_twice_idempotent [] "t1" "e1" 5 6 "login" "logout" 10 11 none none
    (by decide) (by decide) (by decide) (by decide) (by decide) (by decide) (by decide)

/-- C2: with no fault, count returns exactly the number of stored records for
the tenant and event name whose `occurred_at` lies in the half-open interval
`[tFrom, tTo)`; a matching record at `tFrom` satisfies the query predicate and
one at `tTo` does not. -/
theorem C2_count_half_open_window
    (db : List EventRecord) (t en : String) (tFrom tTo : Int)
    (h : tFrom < tTo) :
    (CountEvents db t en tFrom tTo none).1 =
      ((db.filter (fun r =>
          decide (r.tenant_id = t ∧ r.event_name = en ∧
            r.ts ∈ Set.Ico tFrom tTo))).length : Int) ∧
    (∀ r : EventRecord, r.tenant_id = t → r.event_name = en →
      (r.ts = tFrom → countMatches t en tFrom tTo r = true) ∧
      (r.ts = tTo → countMatches t en tFrom tTo r = false)) := by
  constructor
  · show ((db.filter (countMatches t en tFrom tTo)).length : Int) = _
    norm_cast
    congr 1
    apply List.filter_congr
    intro r _
    rw [Bool.eq_iff_iff]
    simp [countMatches, Set.mem_Ico, and_assoc]
  · intro r h1 h2
    constructor
    · intro h3
      simp [countMatches, h1, h2, h3, h]
    · intro h3
      simp [countMatches, h3]

/-- C2 witness: a one-record store probed at both window boundaries. -/
theorem C2_count_half_open_window_witness :
    (CountEvents [{ tenant_id := "t1", event_id := "e1", event_name := "login",
                    ts := 10, properties := "", ingested_at := 0 }]
        "t1" "login" 10 20 none).1 =
      (([{ tenant_id := "t1", event_id := "e1", event_name := "login",
           ts := 10, properties := "", ingested_at := 0 }].filter
          (fun r : EventRecord =>
            decide (r.tenant_id = "t1" ∧ r.event_name = "login" ∧
              r.ts ∈ Set.Ico (10 : Int) 20))).length : Int) ∧
    (∀ r : EventRecord, r.tenant_id = "t1" → r.event_name = "login" →
      (r.ts = 10 → countMatches "t1" "login" 10 20 r = true) ∧
      (r.ts = 20 → countMatches "t1" "login" 10 20 r = false)) :=
  C2_count_half_open_window
    [{ tenant_id := "t1", event_id := "e1", event_name := "login",
       ts := 10, properties := "", ingested_at := 0 }]
    "t1" "login" 10 20 (by decide)

/-- C5: no operation mutates or deletes a stored record.  Every ingest leaves
the prior table as an unchanged initial segment (it can only append), and an
ingest that returns the `duplicate` outcome — `(inserted=false, err=nil)` —
leaves the table, hence the existing record's event_name, occurred_at,
attributes and ingested_at, exactly as stored. -/
theorem C5_records_immutable
    (db : List EventRecord) (ingNow : Int) (fault : Option String)
    (t e en : String) (ts : Int) (p : Option GoFields) :
    (∃ appended, (InsertEvent db ingNow fault t e en ts p).2 = db ++ appended) ∧
    ((InsertEvent db ingNow fault t e en ts p).1 = (false, none) →
      (InsertEvent db ingNow fault t e en ts p).2 = db) := by
  constructor
  · rcases insertEvent_state db ingNow fault t e en ts p with h | h
    · exact ⟨[], by simpa using h⟩
    · exact ⟨_, h⟩
  · intro hdup
    rcases insertEvent_created_or_unchanged db ingNow fault t e en ts p with h | h
    · rw [hdup] at h
      simp at h
    · exact h.2

/-- C5 witness: a duplicate ingest into a one-record store changes nothing. -/
theorem C5_records_immutable_witness :
    (∃ appended,
      (InsertEvent [{ tenant_id := "t1", event_id := "e1", event_name := "login",
                      ts := 10, properties := "a", ingested_at := 0 }]
          7 none "t1" "e1" "other" 99 none).2 =
        [{ tenant_id := "t1", event_id := "e1", event_name := "login",
           ts := 10, properties := "a", ingested_at := 0 }] ++ appended) ∧
    ((InsertEvent [{ tenant_id := "t1", event_id := "e1", event_name := "login",
                     ts := 10, properties := "a", ingested_at := 0 }]
        7 none "t1" "e1" "other" 99 none).1 = (false, none) →
      (InsertEvent [{ tenant_id := "t1", event_id := "e1", event_name := "login",
                      ts := 10, properties := "a", ingested_at := 0 }]
          7 none "t1" "e1" "other" 99 none).2 =
        [{ tenant_id := "t1", event_id := "e1", event_name := "login",
           ts := 10, properties := "a", ingested_at := 0 }]) :=
  C5_records_immutable
    [{ tenant_id := "t1", event_id := "e1", event_name := "login",
       ts := 10, properties := "a", ingested_at := 0 }]
    7 none "t1" "e1" "other" 99 none

/-- C6: for a fixed tenant, event name and store state, count is monotone in
the window: widening `[tFrom, tTo)` on either side can only increase it. -/
theorem C6_count_window_monotone
    (db : List EventRecord) (t en : String) (lo' lo hi hi' : Int)
    (h1 : lo' ≤ lo) (h2 : lo < hi) (h3 : hi ≤ hi') :
    (CountEvents db t en lo hi none).1 ≤ (CountEvents db t en lo' hi' none).1 := by
  show ((db.filter (countMatches t en lo hi)).length : Int) ≤
    ((db.filter (countMatches t en lo' hi')).length : Int)
  rw [Nat.cast_le]
  refine List.Sublist.length_le (List.monotone_filter_right db ?_)
  intro r hr
  simp only [countMatches, Bool.and_eq_true, decide_eq_true_eq] at hr ⊢
  exact ⟨⟨hr.1.1, by omega⟩, by omega⟩

/-- C6 witness: widening `[10, 20)` to `[5, 25)` on a one-record store. -/
theorem C6_count_window_monotone_witness :
    (CountEvents [{ tenant_id := "t1", event_id := "e1", event_name := "login",
                    ts := 12, properties := "", ingested_at := 0 }]
        "t1" "login" 10 20 none).1 ≤
      (CountEvents [{ tenant_id := "t1", event_id := "e1", event_name := "login",
                      ts := 12, properties := "", ingested_at := 0 }]
          "t1" "login" 5 25 none).1 :=
  C6_count_window_monotone
    [{ tenant_id := "t1", event_id := "e1", event_name := "login",
       ts := 12, properties := "", ingested_at := 0 }]
    "t1" "login" 5 10 20 25 (by decide) (by decide) (by decide)

/-- C7: when the storage read fails, count surfaces the failure in the error
component (never `nil`), the handler turns it into a 500 `"db query failed"`
response, and that failure response differs from every successful response —
including a successful count of zero — so a caller can always distinguish
"zero matching records" from "query failed". -/
theorem C7_count_failure_distinct
    (db : List EventRecord) (t en : String) (tFrom tTo : Int) (msg : String) :
    (CountEvents db t en tFrom tTo (some msg)).2 = some msg ∧
    (CountEvents db t en tFrom tTo none).2 = none ∧
    metricsHandler db t en tFrom tTo (some msg) =
      MetricsResponse.serverError "db query failed" ∧
    (∀ (db2 : List EventRecord) (t2 en2 : String) (a b : Int),
      metricsHandler db t en tFrom tTo (some msg) ≠
        metricsHandler db2 t2 en2 a b none) := by
  refine ⟨rfl, rfl, rfl, ?_⟩
  intro db2 t2 en2 a b
  simp [metricsHandler, CountEvents]

/-- C10: the event identity used for deduplication follows the fixed
precedence header > payload > generated UUID: a non-empty `Idempotency-Key`
header wins even when a payload event_id is also supplied; with a blank
header a non-empty payload event_id is used; with neither, the freshly
generated UUID is used, and — the UUID being absent from the store — such a
request is always `created`, never detected as a duplicate. -/
theorem C10_event_identity_precedence
    (hdr pid uuid : String) :
    (hdr ≠ "" → chooseEventID hdr pid uuid = hdr) ∧
    (hdr = "" → pid ≠ "" → chooseEventID hdr pid uuid = pid) ∧
    (hdr = "" → pid = "" → chooseEventID hdr pid uuid = uuid) ∧
    (hdr = "" → pid = "" →
      ∀ (db : List EventRecord) (n : Int) (t en : String) (ts : Int)
        (p : Option GoFields),
        t ≠ "" → en ≠ "" → uuid ≠ "" → marshalOk p = true →
        hasKey db t uuid = false →
        (InsertEvent db n none t (chooseEventID hdr pid uuid) en ts p).1 =
          (true, none)) := by
  refine ⟨?_, ?_, ?_, ?_⟩
  · intro h
    simp [chooseEventID, h]
  · intro h1 h2
    simp [chooseEventID, h1, h2]
  · intro h1 h2
    simp [chooseEventID, h1, h2]
  · intro h1 h2 db n t en ts p ht hen hu hm hk
    have hid : chooseEventID hdr pid uuid = uuid := by
      simp [chooseEventID, h1, h2]
    rw [hid, insertEvent_created db n t uuid en ts p ht hu hen hm hk]

/-- C10 witness: header precedence at `"k1"`, and a generated-UUID request
into the empty store is created. -/
theorem C10_event_identity_precedence_witness :
    chooseEventID "k1" "p1" "u1" = "k1" ∧
    chooseEventID "" "p1" "u1" = "p1" ∧
    chooseEventID "" "" "u1" = "u1" ∧
    (InsertEvent [] 0 none "t1" (chooseEventID "" "" "u1") "login" 3 none).1 =
      (true, none) :=
  ⟨(C10_event_identity_precedence "k1" "p1" "u1").1 (by decide),
   (C10_event_identity_precedence "" "p1" "u1").2.1 rfl (by decide),
   (C10_event_identity_precedence "" "" "u1").2.2.1 rfl rfl,
   (C10_event_identity_precedence "" "" "u1").2.2.2 rfl rfl [] 0 "t1" "login" 3 none
     (by decide) (by decide) (by decide) (by decide) (by decide)⟩

/-- A serialization failure of the attributes aborts the ingest with that
error before any storage interaction, regardless of the fault environment. -/
theorem insertEvent_marshal_error (db : List EventRecord) (ingNow : Int)
    (fault : Option String) (t e en : String) (ts : Int) (p : Option GoFields)
    (ht : t ≠ "") (he : e ≠ "") (hen : en ≠ "") (hm : marshalOk p = false) :
    ∃ msg, InsertEvent db ingNow fault t e en ts p = ((false, some msg), db) := by
  have hcond : ¬ (t = "" ∨ e = "" ∨ en = "") := by
    push_neg
    exact ⟨ht, he, hen⟩
  obtain ⟨msg, hmv⟩ :
      ∃ msg, marshalValue (GoValue.vobj (p.getD GoFields.nil)) = .error msg := by
    unfold marshalOk at hm
    cases hmv : marshalValue (GoValue.vobj (p.getD GoFields.nil)) with
    | ok s => rw [hmv] at hm; cases hm
    | error msg => exact ⟨msg, rfl⟩
  refine ⟨msg, ?_⟩
  unfold InsertEvent
  rw [if_neg hcond]
  simp [hmv]

/-- C3: durability failures are never surfaced as the successful `duplicate`
outcome.  For a valid ingest: any driver fault whose message is not pgx's
no-rows sentinel is returned as a non-nil error; a serialization failure of
the attributes is returned as a non-nil error whatever the driver does; and
the `duplicate` outcome `(inserted=false, err=nil)` occurs exactly when a
record with the same `(tenant_id, event_id)` already existed. -/
theorem C3_failure_reporting
    (db : List EventRecord) (ingNow : Int) (t e en : String) (ts : Int)
    (p : Option GoFields)
    (ht : t ≠ "") (he : e ≠ "") (hen : en ≠ "") :
    (∀ msg, msg ≠ "no rows in result set" →
      (InsertEvent db ingNow (some msg) t e en ts p).1.2 ≠ none) ∧
    (marshalOk p = false →
      ∀ fault, (InsertEvent db ingNow fault t e en ts p).1.2 ≠ none) ∧
    (marshalOk p = true →
      ((InsertEvent db ingNow none t e en ts p).1 = (false, none) ↔
        hasKey db t e = true)) := by
  refine ⟨?_, ?_, ?_⟩
  · intro msg hmsg
    by_cases hm : marshalOk p = true
    · rw [insertEvent_fault db ingNow msg t e en ts p ht he hen hm hmsg]
      simp
    · rw [Bool.not_eq_true] at hm
      obtain ⟨m2, hm2⟩ := insertEvent_marshal_error db ingNow (some msg) t e en ts p
        ht he hen hm
      rw [hm2]
      simp
  · intro hm fault
    obtain ⟨m2, hm2⟩ := insertEvent_marshal_error db ingNow fault t e en ts p
      ht he hen hm
    rw [hm2]
    simp
  · intro hm
    by_cases hk : hasKey db t e = true
    · rw [insertEvent_duplicate db ingNow t e en ts p ht he hen hm hk]
      simp [hk]
    · rw [Bool.not_eq_true] at hk
      rw [insertEvent_created db ingNow t e en ts p ht he hen hm hk]
      simp [hk]

/-- C3 witness: on the empty store with valid inputs, an unreachable-storage
fault is an error, an unserializable attribute map is an error under any
fault, and the no-fault call is not a duplicate (the key was absent). -/
theorem C3_failure_reporting_witness :
    ((∀ msg, msg ≠ "no rows in result set" →
      (InsertEvent [] 0 (some msg) "t1" "e1" "login" 3 none).1.2 ≠ none) ∧
    (marshalOk none = false →
      ∀ fault, (InsertEvent [] 0 fault "t1" "e1" "login" 3 none).1.2 ≠ none) ∧
    (marshalOk none = true →
      ((InsertEvent [] 0 none "t1" "e1" "login" 3 none).1 = (false, none) ↔
        hasKey [] "t1" "e1" = true))) ∧
    ((∀ msg, msg ≠ "no rows in result set" →
      (InsertEvent [] 0 (some msg) "t1" "e1" "login" 3
          (some (GoFields.cons "f" (GoValue.vunsupported "func()") GoFields.nil))).1.2
        ≠ none) ∧
    (marshalOk (some (GoFields.cons "f" (GoValue.vunsupported "func()") GoFields.nil))
        = false →
      ∀ fault, (InsertEvent [] 0 fault "t1" "e1" "login" 3
          (some (GoFields.cons "f" (GoValue.vunsupported "func()") GoFields.nil))).1.2
        ≠ none) ∧
    (marshalOk (some (GoFields.cons "f" (GoValue.vunsupported "func()") GoFields.nil))
        = true →
      ((InsertEvent [] 0 none "t1" "e1" "login" 3
          (some (GoFields.cons "f" (GoValue.vunsupported "func()") GoFields.nil))).1
        = (false, none) ↔ hasKey [] "t1" "e1" = true))) :=
  ⟨C3_failure_reporting [] 0 "t1" "e1" "login" 3 none
      (by decide) (by decide) (by decide),
   C3_failure_reporting [] 0 "t1" "e1" "login" 3
      (some (GoFields.cons "f" (GoValue.vunsupported "func()") GoFields.nil))
      (by decide) (by decide) (by decide)⟩

/-- C4: tenant isolation.  After an ingest under tenant `A`, with `A ≠ B`,
every count under tenant `B` — any event name, window, or fault — and the
`(inserted, err)` outcome of every ingest under tenant `B` — even with the
same event_id and event_name — are exactly what they were before. -/
theorem C4_tenant_isolation
    (db : List EventRecord) (A B : String) (hAB : A ≠ B)
    (nA : Int) (fA : Option String) (eA enA : String) (tsA : Int)
    (pA : Option GoFields) :
    (∀ (en : String) (tFrom tTo : Int) (f : Option String),
      CountEvents (InsertEvent db nA fA A eA enA tsA pA).2 B en tFrom tTo f =
        CountEvents db B en tFrom tTo f) ∧
    (∀ (n2 : Int) (f2 : Option String) (e2 en2 : String) (ts2 : Int)
        (p2 : Option GoFields),
      (InsertEvent (InsertEvent db nA fA A eA enA tsA pA).2 n2 f2 B e2 en2 ts2 p2).1
        = (InsertEvent db n2 f2 B e2 en2 ts2 p2).1) := by
  rcases insertEvent_state db nA fA A eA enA tsA pA with h | h
  · rw [h]
    exact ⟨fun _ _ _ _ => rfl, fun _ _ _ _ _ _ => rfl⟩
  · rw [h]
    constructor
    · intro en tFrom tTo f
      cases f with
      | some msg => rfl
      | none =>
        unfold CountEvents
        have hrec : countMatches B en tFrom tTo
            { tenant_id := A, event_id := eA, event_name := enA, ts := tsA,
              properties := marshalString pA, ingested_at := nA } = false := by
          simp [countMatches, hAB]
        rw [List.filter_append]
        simp [hrec]
    · intro n2 f2 e2 en2 ts2 p2
      apply insertEvent_result_eq_of_hasKey_eq
      rw [hasKey_append_single]
      have hrec : keyMatches B e2
          { tenant_id := A, event_id := eA, event_name := enA, ts := tsA,
            properties := marshalString pA, ingested_at := nA } = false := by
        simp [keyMatches, hAB]
      simp [hrec]

/-- C4 witness: tenants `"tA"` and `"tB"` sharing event_id `"e1"` and event
name `"login"` on the empty store. -/
theorem C4_tenant_isolation_witness :
    (∀ (en : String) (tFrom tTo : Int) (f : Option String),
      CountEvents (InsertEvent [] 0 none "tA" "e1" "login" 3 none).2
          "tB" en tFrom tTo f =
        CountEvents [] "tB" en tFrom tTo f) ∧
    (∀ (n2 : Int) (f2 : Option String) (e2 en2 : String) (ts2 : Int)
        (p2 : Option GoFields),
      (InsertEvent (InsertEvent [] 0 none "tA" "e1" "login" 3 none).2
          n2 f2 "tB" e2 en2 ts2 p2).1
        = (InsertEvent [] n2 f2 "tB" e2 en2 ts2 p2).1) :=
  C4_tenant_isolation [] "tA" "tB" (by decide) 0 none "e1" "login" 3 none

/-- C8: in a batch of N ≥ 1 concurrent valid ingests for one absent
`(tenant_id, event_id)` key, serialized in any order by the database's unique
constraint, the first-arriving call returns `created` and the other N−1
return `duplicate` (so exactly one `created` under every interleaving),
exactly one record with that key is stored afterward, and every table state a
reader could observe during the batch holds at most one record with the key. -/
theorem C8_concurrent_ingest_exactly_one_created
    (db : List EventRecord) (t e : String) (c : IngestCall)
    (rest : List IngestCall)
    (ht : t ≠ "") (he : e ≠ "")
    (hcalls : ∀ x ∈ c :: rest, x.eventName ≠ "" ∧ marshalOk x.properties = true)
    (habsent : hasKey db t e = false) :
    (runIngests t e (c :: rest) db).1 =
      (true, none) :: List.replicate rest.length (false, none) ∧
    keyCount (runIngests t e (c :: rest) db).2 t e = 1 ∧
    (∀ s ∈ ingestStates t e (c :: rest) db, keyCount s t e ≤ 1) := by
  have hc := hcalls c (List.mem_cons_self c rest)
  have hstep := insertEvent_created db c.ingNow t e c.eventName c.ts c.properties
    ht he hc.1 hc.2 habsent
  have hrest : ∀ x ∈ rest, x.eventName ≠ "" ∧ marshalOk x.properties = true :=
    fun x hx => hcalls x (List.mem_cons_of_mem _ hx)
  have hk1 : hasKey (db ++ [{ tenant_id := t, event_id := e,
                              event_name := c.eventName, ts := c.ts,
                              properties := marshalString c.properties,
                              ingested_at := c.ingNow }]) t e = true := by
    rw [hasKey_append_single]
    simp [keyMatches_self]
  have hone : keyCount (db ++ [{ tenant_id := t, event_id := e,
                                 event_name := c.eventName, ts := c.ts,
                                 properties := marshalString c.properties,
                                 ingested_at := c.ingNow }]) t e = 1 := by
    rw [keyCount_append_single, keyCount_eq_zero_of_not_hasKey db t e habsent]
    simp [keyMatches_self]
  refine ⟨?_, ?_, ?_⟩
  · simp only [runIngests, hstep]
    rw [runIngests_all_dup t e rest _ ht he hrest hk1]
  · simp only [runIngests, hstep]
    rw [runIngests_all_dup t e rest _ ht he hrest hk1]
    exact hone
  · intro s hs
    simp only [ingestStates, hstep] at hs
    rw [ingestStates_all_dup t e rest _ ht he hrest hk1] at hs
    rcases List.mem_cons.mp hs with h | h
    · rw [h, keyCount_eq_zero_of_not_hasKey db t e habsent]
      exact Nat.zero_le 1
    · rw [List.eq_of_mem_replicate h, hone]

/-- C8 witness: two concurrent identical submissions for `("t1", "e1")`
against the empty store. -/
theorem C8_concurrent_ingest_exactly_one_created_witness :
    (runIngests "t1" "e1"
        [⟨0, "login", 3, none⟩, ⟨1, "login", 3, none⟩] []).1 =
      (true, none) :: List.replicate 1 (false, none) ∧
    keyCount (runIngests "t1" "e1"
        [⟨0, "login", 3, none⟩, ⟨1, "login", 3, none⟩] []).2 "t1" "e1" = 1 ∧
    (∀ s ∈ ingestStates "t1" "e1"
        [⟨0, "login", 3, none⟩, ⟨1, "login", 3, none⟩] [],
      keyCount s "t1" "e1" ≤ 1) :=
  C8_concurrent_ingest_exactly_one_created [] "t1" "e1"
    ⟨0, "login", 3, none⟩ [⟨1, "login", 3, none⟩]
    (by decide) (by decide)
    (by intro x hx
        rcases List.mem_cons.mp hx with h | h
        · rw [h]; exact ⟨by decide, by decide⟩
        · rw [List.mem_singleton.mp h]; exact ⟨by decide, by decide⟩)
    (by decide)

/-- C9: credential resolution rejects blank and unknown credentials with
externally identical behavior.  For any configuration the loader can produce,
a blank (whitespace-only) `X-API-Key` and any unknown credential both abort
with the same 401 `"unauthorized"` response, so the two cases are
indistinguishable to the caller. -/
theorem C9_blank_unknown_indistinguishable
    (envDBURL envAPIKeys : String) (cfg : Config)
    (hload : Load envDBURL envAPIKeys = .ok cfg)
    (blank unknown : String)
    (hblank : trimSpace blank = "")
    (hunknown : cfg.APIKeys.lookup (trimSpace unknown) = none) :
    APIKeyMiddleware cfg.APIKeys blank = MwResult.rejected 401 "unauthorized" ∧
    APIKeyMiddleware cfg.APIKeys unknown = MwResult.rejected 401 "unauthorized" ∧
    APIKeyMiddleware cfg.APIKeys blank = APIKeyMiddleware cfg.APIKeys unknown := by
  have hblankmiss : cfg.APIKeys.lookup (trimSpace blank) = none := by
    rw [hblank]
    exact lookup_eq_none_of_key_ne cfg.APIKeys ""
      (load_key_ne_blank envDBURL envAPIKeys cfg hload)
  have h1 : APIKeyMiddleware cfg.APIKeys blank = MwResult.rejected 401 "unauthorized" := by
    show (match cfg.APIKeys.lookup (trimSpace blank) with
          | none => MwResult.rejected 401 "unauthorized"
          | some tenantID => MwResult.accepted tenantID) =
      MwResult.rejected 401 "unauthorized"
    rw [hblankmiss]
  have h2 : APIKeyMiddleware cfg.APIKeys unknown = MwResult.rejected 401 "unauthorized" := by
    show (match cfg.APIKeys.lookup (trimSpace unknown) with
          | none => MwResult.rejected 401 "unauthorized"
          | some tenantID => MwResult.accepted tenantID) =
      MwResult.rejected 401 "unauthorized"
    rw [hunknown]
  exact ⟨h1, h2, h1.trans h2.symm⟩

/-- C9 witness: the default-loaded configuration rejecting the blank header
`"  "` and the unknown credential `"wrong-key"` identically. -/
theorem C9_blank_unknown_indistinguishable_witness :
    Load "postgres://db" "" = .ok { DBURL := "postgres://db",
                                    APIKeys := [("tenant-key-123", "tenant1")] } ∧
    APIKeyMiddleware [("tenant-key-123", "tenant1")] "  " =
      MwResult.rejected 401 "unauthorized" ∧
    APIKeyMiddleware [("tenant-key-123", "tenant1")] "wrong-key" =
      MwResult.rejected 401 "unauthorized" ∧
    APIKeyMiddleware [("tenant-key-123", "tenant1")] "  " =
      APIKeyMiddleware [("tenant-key-123", "tenant1")] "wrong-key" := by
  have hload : Load "postgres://db" "" =
      .ok { DBURL := "postgres://db",
            APIKeys := [("tenant-key-123", "tenant1")] } := by rfl
  have h := C9_blank_unknown_indistinguishable "postgres://db" ""
    { DBURL := "postgres://db", APIKeys := [("tenant-key-123", "tenant1")] }
    hload "  " "wrong-key" (by decide) (by decide)
  exact ⟨hload, h.1, h.2.1, h.2.2⟩
